import Mathlib

/-!
Verification of the markitdown-converter core against its source:
the asynchronous batch runner (src/utils/async_processor.py), the file
cache (src/utils/cache.py) and the observer mechanism
(src/utils/observer.py), shallowly embedded as pure Lean functions.
-/

/- ===================== async_processor.py ====================== -/

/-- Classification outcome of one call to
AsyncProcessor._process_single_file: in the source a dict, either
a success record with a message or a failure record with an error text. -/
inductive SingleResult where
  | ok (message : String)
  | err (error : String)
  deriving Repr, DecidableEq

/-- Behaviour of the opaque converter_func supplied by the caller for one
input file: it may return a truthy value, return a falsy value, or raise an
exception whose type name is ty and whose text is msg. -/
inductive ConvBehavior where
  | retTrue
  | retFalse
  | raises (ty : String) (msg : String)
  deriving Repr, DecidableEq

/-- Embedding of AsyncProcessor._process_single_file (async_processor.py,
lines 219-257): the worker first inspects the cancellation flag and
short-circuits to a cancelled failure; otherwise it runs the converter,
catching every exception and stringifying it as type-name colon text.
elapsedStr stands for the formatted wall-clock processing time that the
source interpolates into the success message. -/
def processSingleFile (cancelled : Bool) (beh : ConvBehavior) (elapsedStr : String) : SingleResult :=
  if cancelled then .err "Operação cancelada"
  else
    match beh with
    | .retTrue => .ok ("Convertido em " ++ elapsedStr ++ "s")
    | .retFalse => .err "Falha na conversão"
    | .raises ty msg => .err (ty ++ ": " ++ msg)

/-- Embedding of Python pathlib Path(p).name: the component after the last
slash of the path string. -/
def pathName (p : String) : String :=
  String.mk ((p.data.reverse.takeWhile (fun c => c ≠ '/')).reverse)

/-- Embedding of Python pathlib Path(name).stem for a final component:
everything before the last dot, provided that dot is neither the first nor
the last character (pathlib: a suffix exists only when
0 < name.rfind(dot) < len(name) - 1). -/
def pathStem (name : String) : String :=
  let cs := name.data
  let i := cs.length - 1 - (cs.reverse.findIdx (fun c => c = '.'))
  if 0 < i ∧ i < cs.length - 1 ∧ '.' ∈ cs then String.mk (cs.take i) else name

/-- Embedding of AsyncProcessor._generate_output_path (lines 259-272): the
output file is stem plus a md extension placed inside output_dir (pathlib
path-join normalisation of output_dir itself is not modelled). -/
def generateOutputPath (inputPath outputDir : String) : String :=
  outputDir ++ "/" ++ pathStem (pathName inputPath) ++ ".md"

/-- One submitted conversion job: the entry stored in futures_to_files for
a submitted future (the task_id string used as registry key carries no
information beyond the submission index and file name and is elided). -/
structure Job where
  filePath : String
  outputPath : String
  deriving Repr, DecidableEq

/-- One element of the success list of the returned results dict. -/
structure SuccessEntry where
  file : String
  output : String
  message : String
  deriving Repr, DecidableEq

/-- One element of the errors list of the returned results dict. -/
structure ErrorEntry where
  file : String
  error : String
  deriving Repr, DecidableEq

/-- The aggregate returned by process_files_async: the success list, the
errors list and the cancelled flag. -/
structure BatchResult where
  success : List SuccessEntry
  errors : List ErrorEntry
  cancelled : Bool
  deriving Repr, DecidableEq

/-- What dequeuing a completed future yields: future.result either returns
the dict produced by _process_single_file, or raises (for a future that is
done because it was cancelled, result raises CancelledError; the except
branch of the source turns any such exception into a timeout-or-error
message). -/
inductive FutureOutcome where
  | value (r : SingleResult)
  | raised (msg : String)
  deriving Repr, DecidableEq

/-- A completed future together with its futures_to_files record. -/
structure CompletedFuture where
  job : Job
  outcome : FutureOutcome
  deriving Repr, DecidableEq

/-- Mutable state of the aggregation loop of process_files_async: the
results dict under construction, the object-level cancellation flag, the
completed counter, and the observable side effects (event types published
through notify, progress-callback invocations, converter invocations). -/
structure LoopState where
  success : List SuccessEntry
  errors : List ErrorEntry
  resCancelled : Bool
  flag : Bool
  completedCount : Nat
  events : List String
  progressCalls : List (Nat × Nat × String)
  converterCalls : List String
  deriving Repr

/-- Embedding of the aggregation loop of process_files_async
(async_processor.py, lines 113-196), over the remaining completed futures
in completion order.  Per iteration the source: checks the cancellation
flag and breaks with cancelled set; increments completed_count; publishes
a progress event; classifies future.result into the success or errors
list (publishing file_complete or error); invokes the progress callback
and, exactly when it returns the literal False, runs
cancel_all_operations, marks the results cancelled and breaks.  The
callback result is an Option Bool because a Python callback returning None
does not cancel (the source tests identity with False).  External
cancel_all_operations calls and KeyboardInterrupt are not modelled here
(the flag changes only through the callback path); they are covered by the
transition system further below. -/
def processLoop (cb : Option (Nat → Nat → String → Option Bool)) (total : Nat) :
    List CompletedFuture → LoopState → LoopState
  | [], st => st
  | f :: rest, st =>
    if st.flag then
      { st with resCancelled := true }
    else
      let completed := st.completedCount + 1
      let st1 : LoopState :=
        { st with completedCount := completed,
                  events := st.events ++ ["progress"],
                  converterCalls := st.converterCalls ++ [f.job.filePath] }
      let st2 : LoopState :=
        match f.outcome with
        | .value (.ok msg) =>
            { st1 with success := st1.success ++ [⟨f.job.filePath, f.job.outputPath, msg⟩],
                       events := st1.events ++ ["file_complete"] }
        | .value (.err e) =>
            { st1 with errors := st1.errors ++ [⟨f.job.filePath, e⟩],
                       events := st1.events ++ ["error"] }
        | .raised m =>
            { st1 with errors := st1.errors ++ [⟨f.job.filePath, "Timeout ou erro na execução: " ++ m⟩],
                       events := st1.events ++ ["error"] }
      match cb with
      | none => processLoop cb total rest st2
      | some p =>
          let st3 : LoopState :=
            { st2 with progressCalls := st2.progressCalls ++ [(completed, total, f.job.filePath)] }
          if p completed total f.job.filePath = some false then
            { st3 with flag := true, resCancelled := true,
                       events := st3.events ++ ["operations_cancelled"] }
          else processLoop cb total rest st3

/-- The jobs created by the submission loop of process_files_async, in
submission order: one per input file, with the generated output path. -/
def submitJobs (files : List String) (outputDir : String) : List Job :=
  files.map (fun f => ⟨f, generateOutputPath f outputDir⟩)

/-- Everything observable about one process_files_async invocation: the
returned results dict, the notify event types in order, the
progress-callback invocations and the converter invocations belonging to
dequeued futures. -/
structure RunOutput where
  result : BatchResult
  events : List String
  progressCalls : List (Nat × Nat × String)
  converterCalls : List String
  deriving Repr

/-- The completed future a submitted job turns into when no cancellation
interferes: its worker ran _process_single_file with the flag unset and
the future holds the returned value. -/
def mkCompleted (beh : String → ConvBehavior) (elapsed : String → String) (j : Job) :
    CompletedFuture :=
  ⟨j, FutureOutcome.value (processSingleFile false (beh j.filePath) (elapsed j.filePath))⟩

/-- Embedding of AsyncProcessor.process_files_async (async_processor.py,
lines 53-217) for a run without external cancellation: an empty file list
returns the empty results dict at once, before any event is published and
before anything is submitted; otherwise the flag is reset, a process_start
event is published, all jobs are submitted, the aggregation loop runs over
the futures in completion order (the parameter order, a permutation of the
submission list chosen by the scheduler), and a process_complete event is
published exactly when the run was not cancelled.  Every dequeued future
completed normally, so its value is what _process_single_file returned
with the flag unset (beh gives the converter behaviour per input file and
elapsed its formatted wall-clock duration). -/
def processFilesAsync (files : List String) (outputDir : String)
    (beh : String → ConvBehavior) (elapsed : String → String)
    (cb : Option (Nat → Nat → String → Option Bool))
    (order : List Job) : RunOutput :=
  if files.isEmpty then ⟨⟨[], [], false⟩, [], [], []⟩
  else
    let total := files.length
    let completedList := order.map (mkCompleted beh elapsed)
    let stF := processLoop cb total completedList ⟨[], [], false, false, 0, ["process_start"], [], []⟩
    let events := if stF.resCancelled then stF.events else stF.events ++ ["process_complete"]
    ⟨⟨stF.success, stF.errors, stF.resCancelled⟩, events, stF.progressCalls, stF.converterCalls⟩

/-- The per-file timeout the source passes to future.result, in seconds
(async_processor.py, line 133). -/
def perFileTimeoutSecs : Nat := 30

/-- Formatting of an integral number of seconds the way the success
message formats processing_time with two decimal places. -/
def fmtSecs (n : Nat) : String := toString n ++ ".00"

/-- Embedding of process_files_async for a run in which the converter call
for file f takes duration f seconds of wall time.  In the source the
aggregation loop iterates over as_completed(...) with no deadline, so it
blocks until a future is actually done before dequeuing it, and
future.result(timeout=30) applied to a done future returns immediately:
the per-file timeout argument can never elapse, and classification is
independent of how long the conversion took.  The duration is observable
only in the completion order chosen by the scheduler and in the formatted
processing time of the success message. -/
def processFilesAsyncTimed (files : List String) (outputDir : String)
    (beh : String → ConvBehavior) (duration : String → Nat)
    (cb : Option (Nat → Nat → String → Option Bool)) (order : List Job) : RunOutput :=
  processFilesAsync files outputDir beh (fun f => fmtSecs (duration f)) cb order

/-- Success-list entry contributed by one dequeued completed future, if
any (the branch of the aggregation loop taken when the returned dict has
success set to True). -/
def successOf (f : CompletedFuture) : Option SuccessEntry :=
  match f.outcome with
  | .value (.ok msg) => some ⟨f.job.filePath, f.job.outputPath, msg⟩
  | _ => none

/-- Errors-list entry contributed by one dequeued completed future, if any
(the failure branch, and the except branch with its timeout-or-error
prefix). -/
def errorOf (f : CompletedFuture) : Option ErrorEntry :=
  match f.outcome with
  | .value (.ok _) => none
  | .value (.err e) => some ⟨f.job.filePath, e⟩
  | .raised m => some ⟨f.job.filePath, "Timeout ou erro na execução: " ++ m⟩

/-- Event types published per dequeued future: a progress event, then
file_complete on success or error on failure. -/
def eventsOf : List CompletedFuture → List String
  | [] => []
  | f :: rest =>
      "progress" :: (match f.outcome with
        | .value (.ok _) => "file_complete"
        | _ => "error") :: eventsOf rest

/- ========================== cache.py =========================== -/

/-- The stat information of a file that FileCache._get_file_hash consumes:
its size and its modification time (st_mtime, modelled as an integral
number of ticks). -/
structure FileStat where
  size : Nat
  mtime : Nat
  deriving Repr, DecidableEq

/-- The file system visible to os.path.exists and os.stat: each path
either maps to stat information or does not exist. -/
structure FileSystem where
  files : String → Option FileStat

/-- Embedding of FileCache._get_file_hash (cache.py, lines 55-63): the md5
hex digest of the string built from size, an underscore and mtime, or the
empty string when os.stat raises.  The digest is modelled by the
underlying (size, mtime) pair: the underscore-separated decimal encoding
of the pair is injective and md5 collisions on it are abstracted away; the
empty-string failure value is modelled by none. -/
def get_file_hash (fs : FileSystem) (p : String) : Option FileStat :=
  fs.files p

/-- Embedding of FileCache._get_cache_key (cache.py, lines 151-154): the
md5 hex digest of input path, underscore, output path, modelled by the
pair of paths itself (same abstraction as for get_file_hash). -/
def get_cache_key (input_path output_path : String) : String × String :=
  (input_path, output_path)

/-- One value of the persisted cache mapping (cache.py, lines 138-144). -/
structure CacheEntry where
  input_path : String
  output_path : String
  file_hash : Option FileStat
  timestamp : Int
  conversion_options : List (String × String)
  deriving Repr, DecidableEq

/-- The in-memory cache mapping self._cache_data: a Python dict from cache
key to entry, modelled as an association list with at most one binding per
key maintained by insertEntry. -/
abbrev CacheData := List ((String × String) × CacheEntry)

/-- Dict membership plus indexing: the entry stored under a key, if any. -/
def lookupEntry (d : CacheData) (k : String × String) : Option CacheEntry :=
  (d.find? (fun kv => decide (kv.1 = k))).map (fun kv => kv.2)

/-- Dict assignment self._cache_data[key] = entry: replaces any existing
binding of the key (binding position in the dict is irrelevant to
lookups and is not preserved). -/
def insertEntry (d : CacheData) (k : String × String) (e : CacheEntry) : CacheData :=
  d.filter (fun kv => decide (kv.1 ≠ k)) ++ [(k, e)]

/-- The expiry cutoff datetime.now() minus timedelta(days=max_age_days),
as a timestamp in seconds. -/
def cutoffTimestamp (now : Int) (maxAgeDays : Nat) : Int :=
  now - (maxAgeDays : Int) * 86400

/-- The constructor default of max_age_days (cache.py, line 16). -/
def defaultMaxAgeDays : Nat := 30

/-- Embedding of FileCache.is_cached (cache.py, lines 82-124): false as
soon as the input path does not exist, the output path does not exist, the
key has no entry, the stored digest differs from the input file's current
digest, or the entry's timestamp lies before the retention cutoff;
otherwise true.  now is the timestamp of datetime.now() at the call. -/
def is_cached (fs : FileSystem) (now : Int) (maxAgeDays : Nat) (d : CacheData)
    (input_path output_path : String) : Bool :=
  if (fs.files input_path).isNone then false
  else if (fs.files output_path).isNone then false
  else
    match lookupEntry d (get_cache_key input_path output_path) with
    | none => false
    | some cached =>
      if get_file_hash fs input_path ≠ cached.file_hash then false
      else if cached.timestamp < cutoffTimestamp now maxAgeDays then false
      else true

/-- Embedding of FileCache.add_to_cache (cache.py, lines 126-149): upserts
the entry for the derived key, stamped with the input file's current
digest and the current time.  _save_cache only serialises the mapping (its
IOError branch leaves the in-memory mapping unchanged and is invisible
here). -/
def add_to_cache (fs : FileSystem) (now : Int) (d : CacheData)
    (input_path output_path : String)
    (conversion_options : List (String × String)) : CacheData :=
  insertEntry d (get_cache_key input_path output_path)
    ⟨input_path, output_path, get_file_hash fs input_path, now, conversion_options⟩

/-- Embedding of FileCache._cleanup_expired (cache.py, lines 65-80), run
once after loading: drops every entry whose timestamp lies before the
retention cutoff. -/
def cleanup_expired (now : Int) (maxAgeDays : Nat) (d : CacheData) : CacheData :=
  d.filter (fun kv => decide (¬ kv.2.timestamp < cutoffTimestamp now maxAgeDays))

/-- What reading the persisted cache file can come to: the file is absent,
open or read raises IOError, json.load raises JSONDecodeError, or a
mapping is obtained. -/
inductive CacheReadOutcome where
  | missing
  | readError (msg : String)
  | malformed (msg : String)
  | loaded (d : CacheData)

/-- Embedding of FileCache._load_cache (cache.py, lines 37-45): the loaded
mapping when the file exists and parses; the empty mapping on a missing
file and on either caught exception (the warning log is elided). -/
def load_cache : CacheReadOutcome → CacheData
  | .loaded d => d
  | _ => []

/-- The cache data FileCache.__init__ ends up with: the loaded mapping
with expired entries purged (cache.py, lines 16-35). -/
def init_cache_data (now : Int) (maxAgeDays : Nat) (r : CacheReadOutcome) : CacheData :=
  cleanup_expired now maxAgeDays (load_cache r)

/- ========================= observer.py ========================= -/

/-- A registered observer as Subject.notify can distinguish it: an
identity, and whether its update call raises (with the exception text). -/
structure ListenerModel where
  id : Nat
  raises : Option String
  deriving Repr, DecidableEq

/-- The observable steps a Subject.notify call performs, in order. -/
inductive NotifyStep where
  | lockAcquired
  | snapshotTaken (ids : List Nat)
  | lockReleased
  | invoked (id : Nat) (raised : Bool)
  deriving Repr, DecidableEq

/-- Embedding of the delivery loop of Subject.notify (observer.py, lines
50-55): each observer of the snapshot has its update method attempted; a
raising update is caught (the error is printed) and delivery proceeds with
the next observer. -/
def deliverAll : List ListenerModel → List NotifyStep
  | [] => []
  | o :: rest => NotifyStep.invoked o.id o.raises.isSome :: deliverAll rest

/-- Embedding of Subject.notify (observer.py, lines 41-55) as its step
trace: under the lock a copy of the observer list is taken, the lock is
released, and only then is each snapshotted observer invoked. -/
def notifyTrace (observers : List ListenerModel) : List NotifyStep :=
  NotifyStep.lockAcquired
    :: NotifyStep.snapshotTaken (observers.map (fun o => o.id))
    :: NotifyStep.lockReleased
    :: deliverAll observers

/-- Projection selecting the invocation steps of a notify trace. -/
def invokedId : NotifyStep → Option Nat
  | .invoked i _ => some i
  | _ => none

/- ============ cancellation as a transition system ============== -/

/-- The life of one submitted future at the abstraction of the spec state
machine: pending (submitted, conversion not begun), running (its
conversion is executing), done (its conversion returned), or cancelled
(future.cancel succeeded, or _process_single_file observed the flag and
short-circuited without running the conversion). -/
inductive JobPhase where
  | pending
  | running
  | done
  | cancelledJob
  deriving Repr, DecidableEq

/-- Shared state of one AsyncProcessor batch after submission: the
cancellation flag self._cancelled, the phase of the future submitted with
each task index, and the task indices currently registered in
self._active_futures. -/
structure RunnerState where
  flag : Bool
  jobs : Nat → JobPhase
  registry : List Nat

/-- Embedding of AsyncProcessor.cancel_all_operations (async_processor.py,
lines 274-299): under the lock the flag is set, future.cancel is called on
every registered future (succeeding exactly on those whose conversion has
not begun) and the registry is cleared. -/
def cancelAllState (s : RunnerState) : RunnerState :=
  { flag := true,
    jobs := fun i => if i ∈ s.registry ∧ s.jobs i = .pending then .cancelledJob else s.jobs i,
    registry := [] }

/-- Embedding of AsyncProcessor.get_active_tasks_count (lines 301-309):
the registered futures whose future.done() is false, that is, those still
pending or running. -/
def activeCount (s : RunnerState) : Nat :=
  (s.registry.filter (fun i => decide (s.jobs i = .pending ∨ s.jobs i = .running))).length

/-- Interleaved events of one batch after submission.  A worker thread
picking a pending future reads the flag: if it is unset the conversion
starts (start); if it is set, _process_single_file returns the cancelled
failure without running the conversion (shortCircuit) - the same step also
stands for a successful future.cancel.  A running conversion eventually
returns (finish); the aggregation loop deletes a task from the registry
after consuming its result (dequeue); and cancel_all_operations may be
invoked from any thread at any time (cancelAll). -/
inductive Step : RunnerState → RunnerState → Prop where
  | start (s : RunnerState) (i : Nat) :
      s.jobs i = .pending → s.flag = false →
      Step s { s with jobs := fun j => if j = i then .running else s.jobs j }
  | shortCircuit (s : RunnerState) (i : Nat) :
      s.jobs i = .pending → s.flag = true →
      Step s { s with jobs := fun j => if j = i then .cancelledJob else s.jobs j }
  | finish (s : RunnerState) (i : Nat) :
      s.jobs i = .running →
      Step s { s with jobs := fun j => if j = i then .done else s.jobs j }
  | dequeue (s : RunnerState) (i : Nat) :
      Step s { s with registry := s.registry.erase i }
  | cancelAll (s : RunnerState) :
      Step s (cancelAllState s)

/-- A concrete post-cancellation state used to witness the cancellation
theorem: the flag is set and one pending future is registered. -/
def witnessRunnerState : RunnerState :=
  { flag := true, jobs := fun _ => .pending, registry := [0] }

/-- A concrete file system used to witness the cache theorems: an input
document and its converted output both exist. -/
def fsA : FileSystem :=
  ⟨fun p => if p = "doc.pdf" then some ⟨100, 5⟩
            else if p = "doc.md" then some ⟨10, 6⟩ else none⟩

/-- The same file system after the input document changed (its
modification time moved), used to witness staleness detection. -/
def fsB : FileSystem :=
  ⟨fun p => if p = "doc.pdf" then some ⟨100, 7⟩
            else if p = "doc.md" then some ⟨10, 6⟩ else none⟩

/- ========================= theorems ============================ -/

theorem is_cached_true_iff (fs : FileSystem) (now : Int) (maxAgeDays : Nat)
    (d : CacheData) (inp outp : String) :
    is_cached fs now maxAgeDays d inp outp = true ↔
      (fs.files inp).isSome = true ∧ (fs.files outp).isSome = true ∧
      ∃ e, lookupEntry d (get_cache_key inp outp) = some e ∧
           e.file_hash = get_file_hash fs inp ∧
           cutoffTimestamp now maxAgeDays ≤ e.timestamp := by
  unfold is_cached
  cases h1 : fs.files inp with
  | none => simp [h1]
  | some st =>
    cases h2 : fs.files outp with
    | none => simp [h1, h2]
    | some st2 =>
      cases h3 : lookupEntry d (get_cache_key inp outp) with
      | none => simp [h1, h2, h3]
      | some e =>
        simp only [h1, h2, h3, Option.isNone_some, Bool.false_eq_true, if_false,
          Option.isSome_some, Option.some.injEq, true_and]
        constructor
        · intro h
          split_ifs at h with hne hts
          exact ⟨e, rfl, (not_ne_iff.mp hne).symm, not_lt.mp hts⟩
        · rintro ⟨e', rfl, hhash, hts⟩
          rw [if_neg (not_ne_iff.mpr hhash.symm), if_neg (not_lt.mpr hts)]

theorem is_cached_empty_data (fs : FileSystem) (now : Int) (maxAgeDays : Nat)
    (inp outp : String) :
    is_cached fs now maxAgeDays [] inp outp = false := by
  unfold is_cached
  cases fs.files inp <;> cases fs.files outp <;> simp [lookupEntry, List.find?]

/-- C2: the cache validity check is_cached returns true exactly when the
input path exists, the output path exists, an entry is stored under the
key derived from the path pair, the entry's stored fingerprint equals the
input file's current size-and-mtime digest, and the entry's timestamp is
not older than the retention cutoff; if any of these conditions fails it
returns false. -/
theorem is_cached_characterisation (fs : FileSystem) (now : Int) (maxAgeDays : Nat)
    (d : CacheData) (inp outp : String) :
    is_cached fs now maxAgeDays d inp outp = true ↔
      (fs.files inp).isSome = true ∧ (fs.files outp).isSome = true ∧
      ∃ e, lookupEntry d (get_cache_key inp outp) = some e ∧
           e.file_hash = get_file_hash fs inp ∧
           cutoffTimestamp now maxAgeDays ≤ e.timestamp :=
  is_cached_true_iff fs now maxAgeDays d inp outp

/-- C8: a failed read or parse of the persisted cache file (missing file,
IOError, JSONDecodeError) degrades the cache to the empty mapping without
any exception crossing the cache boundary, and every validity lookup
against the degraded cache reports not-cached. -/
theorem load_failure_degrades_to_empty :
    (∀ (now : Int) (maxAgeDays : Nat) (m : String),
        init_cache_data now maxAgeDays .missing = [] ∧
        init_cache_data now maxAgeDays (.readError m) = [] ∧
        init_cache_data now maxAgeDays (.malformed m) = []) ∧
    (∀ (fs : FileSystem) (now now' : Int) (maxAgeDays maxAgeDays' : Nat)
        (m : String) (inp outp : String),
        is_cached fs now' maxAgeDays' (init_cache_data now maxAgeDays .missing) inp outp = false ∧
        is_cached fs now' maxAgeDays' (init_cache_data now maxAgeDays (.readError m)) inp outp = false ∧
        is_cached fs now' maxAgeDays' (init_cache_data now maxAgeDays (.malformed m)) inp outp = false) := by
  refine ⟨fun now maxAgeDays m => ⟨rfl, rfl, rfl⟩, fun fs now now' maxAgeDays maxAgeDays' m inp outp => ?_⟩
  exact ⟨is_cached_empty_data fs now' maxAgeDays' inp outp,
         is_cached_empty_data fs now' maxAgeDays' inp outp,
         is_cached_empty_data fs now' maxAgeDays' inp outp⟩

theorem deliverAll_eq_map (l : List ListenerModel) :
    deliverAll l = l.map (fun o => NotifyStep.invoked o.id o.raises.isSome) := by
  induction l with
  | nil => rfl
  | cons o rest ih => simp [deliverAll, ih]

theorem filterMap_invokedId_deliverAll (l : List ListenerModel) :
    (deliverAll l).filterMap invokedId = l.map (fun o => o.id) := by
  induction l with
  | nil => rfl
  | cons o rest ih => simp [deliverAll, List.filterMap_cons, invokedId, ih]

/-- C9: a notify call first takes, under the lock, a snapshot of the
listeners registered at the moment of publication and releases the lock
(the three leading steps of the trace), and only then invokes listeners:
the steps after the lock release are exactly one invocation per
snapshotted listener, in order, so the event is delivered to every
listener of the snapshot even when some listener's update raises (a
raising listener is invoked and caught, and every remaining listener is
still invoked). -/
theorem notify_snapshot_delivery (observers : List ListenerModel) :
    (notifyTrace observers).take 3 =
        [NotifyStep.lockAcquired, NotifyStep.snapshotTaken (observers.map (fun o => o.id)),
         NotifyStep.lockReleased] ∧
    (notifyTrace observers).drop 3 =
        observers.map (fun o => NotifyStep.invoked o.id o.raises.isSome) ∧
    (notifyTrace observers).filterMap invokedId = observers.map (fun o => o.id) := by
  refine ⟨rfl, deliverAll_eq_map observers, ?_⟩
  simp [notifyTrace, List.filterMap_cons, invokedId, filterMap_invokedId_deliverAll]

/-- C10: calling the batch runner with an empty list of input files
returns the empty result with cancelled unset at once, publishing no event
(not even process_start), invoking no converter and invoking no progress
callback. -/
theorem empty_batch_immediate (outputDir : String) (beh : String → ConvBehavior)
    (elapsed : String → String) (cb : Option (Nat → Nat → String → Option Bool))
    (order : List Job) :
    processFilesAsync [] outputDir beh elapsed cb order =
      ⟨⟨[], [], false⟩, [], [], []⟩ := rfl

theorem processLoop_counts (cb : Option (Nat → Nat → String → Option Bool)) (total : Nat) :
    ∀ (l : List CompletedFuture) (st : LoopState),
      st.flag = false → st.resCancelled = false →
      ((processLoop cb total l st).success.length + (processLoop cb total l st).errors.length
          ≤ st.success.length + st.errors.length + l.length) ∧
      ((processLoop cb total l st).resCancelled = false →
        (processLoop cb total l st).success.length + (processLoop cb total l st).errors.length
          = st.success.length + st.errors.length + l.length) := by
  intro l
  induction l with
  | nil =>
    intro st h1 h2
    constructor
    · simp [processLoop]
    · intro _; simp [processLoop]
  | cons f rest ih =>
    intro st h1 h2
    obtain ⟨⟨fp, op⟩, oc⟩ := f
    rcases oc with r | m
    · rcases r with msg | e
      · rcases cb with _ | p
        · have h := ih { st with
              success := st.success ++ [⟨fp, op, msg⟩],
              completedCount := st.completedCount + 1,
              events := (st.events ++ ["progress"]) ++ ["file_complete"],
              converterCalls := st.converterCalls ++ [fp] } h1 h2
          simp only [processLoop, h1, Bool.false_eq_true, if_false] at *
          constructor
          · have := h.1
            simp at this ⊢
            omega
          · intro hc
            have := h.2 (by simpa using hc)
            simp at this ⊢
            omega
        · by_cases hp : p (st.completedCount + 1) total fp = some false
          · simp only [processLoop, h1, Bool.false_eq_true, if_false, hp, if_true]
            constructor
            · simp; omega
            · intro hc; simp at hc
          · have h := ih { st with
                success := st.success ++ [⟨fp, op, msg⟩],
                completedCount := st.completedCount + 1,
                events := (st.events ++ ["progress"]) ++ ["file_complete"],
                progressCalls := st.progressCalls ++ [(st.completedCount + 1, total, fp)],
                converterCalls := st.converterCalls ++ [fp] } h1 h2
            simp only [processLoop, h1, Bool.false_eq_true, if_false, hp, if_neg] at *
            constructor
            · have := h.1
              simp at this ⊢
              omega
            · intro hc
              have := h.2 (by simpa using hc)
              simp at this ⊢
              omega
      · rcases cb with _ | p
        · have h := ih { st with
              errors := st.errors ++ [⟨fp, e⟩],
              completedCount := st.completedCount + 1,
              events := (st.events ++ ["progress"]) ++ ["error"],
              converterCalls := st.converterCalls ++ [fp] } h1 h2
          simp only [processLoop, h1, Bool.false_eq_true, if_false] at *
          constructor
          · have := h.1
            simp at this ⊢
            omega
          · intro hc
            have := h.2 (by simpa using hc)
            simp at this ⊢
            omega
        · by_cases hp : p (st.completedCount + 1) total fp = some false
          · simp only [processLoop, h1, Bool.false_eq_true, if_false, hp, if_true]
            constructor
            · simp; omega
            · intro hc; simp at hc
          · have h := ih { st with
                errors := st.errors ++ [⟨fp, e⟩],
                completedCount := st.completedCount + 1,
                events := (st.events ++ ["progress"]) ++ ["error"],
                progressCalls := st.progressCalls ++ [(st.completedCount + 1, total, fp)],
                converterCalls := st.converterCalls ++ [fp] } h1 h2
            simp only [processLoop, h1, Bool.false_eq_true, if_false, hp, if_neg] at *
            constructor
            · have := h.1
              simp at this ⊢
              omega
            · intro hc
              have := h.2 (by simpa using hc)
              simp at this ⊢
              omega
    · rcases cb with _ | p
      · have h := ih { st with
            errors := st.errors ++ [⟨fp, "Timeout ou erro na execução: " ++ m⟩],
            completedCount := st.completedCount + 1,
            events := (st.events ++ ["progress"]) ++ ["error"],
            converterCalls := st.converterCalls ++ [fp] } h1 h2
        simp only [processLoop, h1, Bool.false_eq_true, if_false] at *
        constructor
        · have := h.1
          simp at this ⊢
          omega
        · intro hc
          have := h.2 (by simpa using hc)
          simp at this ⊢
          omega
      · by_cases hp : p (st.completedCount + 1) total fp = some false
        · simp only [processLoop, h1, Bool.false_eq_true, if_false, hp, if_true]
          constructor
          · simp; omega
          · intro hc; simp at hc
        · have h := ih { st with
              errors := st.errors ++ [⟨fp, "Timeout ou erro na execução: " ++ m⟩],
              completedCount := st.completedCount + 1,
              events := (st.events ++ ["progress"]) ++ ["error"],
              progressCalls := st.progressCalls ++ [(st.completedCount + 1, total, fp)],
              converterCalls := st.converterCalls ++ [fp] } h1 h2
          simp only [processLoop, h1, Bool.false_eq_true, if_false, hp, if_neg] at *
          constructor
          · have := h.1
            simp at this ⊢
            omega
          · intro hc
            have := h.2 (by simpa using hc)
            simp at this ⊢
            omega

/-- C1: for every batch, every submitted job is classified exactly once in
the returned result: the successes and errors never exceed the number of
submitted jobs, and whenever the cancelled flag is unset they account for
every submitted job, so an omitted job exists only in a run whose result
carries cancelled set (successes plus errors plus cancellation-omitted
items equals the number of submitted jobs). -/
theorem batch_conservation (files : List String) (outputDir : String)
    (beh : String → ConvBehavior) (elapsed : String → String)
    (cb : Option (Nat → Nat → String → Option Bool)) (order : List Job)
    (horder : order.Perm (submitJobs files outputDir)) :
    (processFilesAsync files outputDir beh elapsed cb order).result.success.length
      + (processFilesAsync files outputDir beh elapsed cb order).result.errors.length
      ≤ files.length ∧
    ((processFilesAsync files outputDir beh elapsed cb order).result.cancelled = false →
      (processFilesAsync files outputDir beh elapsed cb order).result.success.length
        + (processFilesAsync files outputDir beh elapsed cb order).result.errors.length
        = files.length) := by
  have hlen : order.length = files.length := by
    simpa [submitJobs] using horder.length_eq
  rcases files with _ | ⟨f0, fs0⟩
  · simp [processFilesAsync]
  · have h := processLoop_counts cb (f0 :: fs0).length
      (order.map (mkCompleted beh elapsed))
      ⟨[], [], false, false, 0, ["process_start"], [], []⟩ rfl rfl
    simp only [processFilesAsync, List.isEmpty_cons, Bool.false_eq_true, if_false]
    simp only [List.length_map, hlen, List.length_nil] at h
    constructor
    · have := h.1
      simpa using this
    · intro hc
      have := h.2 (by simpa using hc)
      simpa using this

/-- Witness: a concrete two-file batch in which nothing is cancelled. -/
theorem batch_conservation_witness :
    (processFilesAsync ["a.txt", "b.txt"] "out" (fun _ => ConvBehavior.retTrue)
        (fun _ => "0.10") none (submitJobs ["a.txt", "b.txt"] "out")).result.success.length
      + (processFilesAsync ["a.txt", "b.txt"] "out" (fun _ => ConvBehavior.retTrue)
        (fun _ => "0.10") none (submitJobs ["a.txt", "b.txt"] "out")).result.errors.length
      ≤ 2 ∧
    ((processFilesAsync ["a.txt", "b.txt"] "out" (fun _ => ConvBehavior.retTrue)
        (fun _ => "0.10") none (submitJobs ["a.txt", "b.txt"] "out")).result.cancelled = false →
      (processFilesAsync ["a.txt", "b.txt"] "out" (fun _ => ConvBehavior.retTrue)
        (fun _ => "0.10") none (submitJobs ["a.txt", "b.txt"] "out")).result.success.length
        + (processFilesAsync ["a.txt", "b.txt"] "out" (fun _ => ConvBehavior.retTrue)
          (fun _ => "0.10") none (submitJobs ["a.txt", "b.txt"] "out")).result.errors.length
        = 2) :=
  batch_conservation ["a.txt", "b.txt"] "out" (fun _ => ConvBehavior.retTrue)
    (fun _ => "0.10") none (submitJobs ["a.txt", "b.txt"] "out") (List.Perm.refl _)

theorem processLoop_cancel_at (total n : Nat) (p : Nat → Nat → String → Option Bool)
    (hfalse : ∀ f, p n total f = some false) :
    ∀ (l : List CompletedFuture) (st : LoopState),
      st.flag = false → st.resCancelled = false →
      st.completedCount < n → n ≤ st.completedCount + l.length →
      (∀ k f, st.completedCount < k → k < n → p k total f ≠ some false) →
      (processLoop (some p) total l st).resCancelled = true ∧
      (processLoop (some p) total l st).success.length
        + (processLoop (some p) total l st).errors.length
        = st.success.length + st.errors.length + (n - st.completedCount) ∧
      (processLoop (some p) total l st).progressCalls.length
        = st.progressCalls.length + (n - st.completedCount) := by
  intro l
  induction l with
  | nil =>
    intro st h1 h2 h3 h4 h5
    simp only [List.length_nil, Nat.add_zero] at h4
    omega
  | cons f rest ih =>
    intro st h1 h2 h3 h4 h5
    obtain ⟨⟨fp, op⟩, oc⟩ := f
    by_cases hn : st.completedCount + 1 = n
    · have hp : p (st.completedCount + 1) total fp = some false := by
        rw [hn]; exact hfalse fp
      rcases oc with r | m
      · rcases r with msg | e
        · simp only [processLoop, h1, Bool.false_eq_true, if_false, hp, if_true]
          refine ⟨by simp, by simp <;> omega, by simp <;> omega⟩
        · simp only [processLoop, h1, Bool.false_eq_true, if_false, hp, if_true]
          refine ⟨by simp, by simp <;> omega, by simp <;> omega⟩
      · simp only [processLoop, h1, Bool.false_eq_true, if_false, hp, if_true]
        refine ⟨by simp, by simp <;> omega, by simp <;> omega⟩
    · have hlt : st.completedCount + 1 < n := by omega
      have hp : p (st.completedCount + 1) total fp ≠ some false :=
        h5 (st.completedCount + 1) fp (Nat.lt_succ_self _) hlt
      rcases oc with r | m
      · rcases r with msg | e
        · have h := ih { st with
              success := st.success ++ [⟨fp, op, msg⟩],
              completedCount := st.completedCount + 1,
              events := (st.events ++ ["progress"]) ++ ["file_complete"],
              progressCalls := st.progressCalls ++ [(st.completedCount + 1, total, fp)],
              converterCalls := st.converterCalls ++ [fp] } h1 h2 hlt
            (by have h4' : n ≤ st.completedCount + (rest.length + 1) := by simpa using h4
                simp <;> omega)
            (fun k g hk hk' => h5 k g
              (by have hk2 : st.completedCount + 1 < k := by simpa using hk
                  omega) hk')
          simp only [processLoop, h1, Bool.false_eq_true, if_false, hp, if_neg] at *
          refine ⟨h.1, ?_, ?_⟩
          · have := h.2.1
            simp at this ⊢
            omega
          · have := h.2.2
            simp at this ⊢
            omega
        · have h := ih { st with
              errors := st.errors ++ [⟨fp, e⟩],
              completedCount := st.completedCount + 1,
              events := (st.events ++ ["progress"]) ++ ["error"],
              progressCalls := st.progressCalls ++ [(st.completedCount + 1, total, fp)],
              converterCalls := st.converterCalls ++ [fp] } h1 h2 hlt
            (by have h4' : n ≤ st.completedCount + (rest.length + 1) := by simpa using h4
                simp <;> omega)
            (fun k g hk hk' => h5 k g
              (by have hk2 : st.completedCount + 1 < k := by simpa using hk
                  omega) hk')
          simp only [processLoop, h1, Bool.false_eq_true, if_false, hp, if_neg] at *
          refine ⟨h.1, ?_, ?_⟩
          · have := h.2.1
            simp at this ⊢
            omega
          · have := h.2.2
            simp at this ⊢
            omega
      · have h := ih { st with
            errors := st.errors ++ [⟨fp, "Timeout ou erro na execução: " ++ m⟩],
            completedCount := st.completedCount + 1,
            events := (st.events ++ ["progress"]) ++ ["error"],
            progressCalls := st.progressCalls ++ [(st.completedCount + 1, total, fp)],
            converterCalls := st.converterCalls ++ [fp] } h1 h2 hlt
          (by have h4' : n ≤ st.completedCount + (rest.length + 1) := by simpa using h4
              simp <;> omega)
          (fun k g hk hk' => h5 k g
            (by have hk2 : st.completedCount + 1 < k := by simpa using hk
                omega) hk')
        simp only [processLoop, h1, Bool.false_eq_true, if_false, hp, if_neg] at *
        refine ⟨h.1, ?_, ?_⟩
        · have := h.2.1
          simp at this ⊢
          omega
        · have := h.2.2
          simp at this ⊢
          omega

/-- C4: when the progress callback returns the literal False after the
nth completion (and not earlier), the runner treats it as a cancellation
signal: the returned result carries cancelled set, exactly n completed
items are recorded as resolved (successes plus errors), the callback was
invoked exactly n times, and the remaining jobs of the batch are never
dequeued. -/
theorem callback_cancellation (files : List String) (outputDir : String)
    (beh : String → ConvBehavior) (elapsed : String → String)
    (p : Nat → Nat → String → Option Bool) (order : List Job) (n : Nat)
    (horder : order.Perm (submitJobs files outputDir))
    (hn : 1 ≤ n) (hlen : n ≤ files.length)
    (hbefore : ∀ k f, 1 ≤ k → k < n → p k files.length f ≠ some false)
    (hat : ∀ f, p n files.length f = some false) :
    (processFilesAsync files outputDir beh elapsed (some p) order).result.cancelled = true ∧
    (processFilesAsync files outputDir beh elapsed (some p) order).result.success.length
      + (processFilesAsync files outputDir beh elapsed (some p) order).result.errors.length
      = n ∧
    (processFilesAsync files outputDir beh elapsed (some p) order).progressCalls.length = n := by
  have hlen0 : order.length = files.length := by
    simpa [submitJobs] using horder.length_eq
  rcases files with _ | ⟨f0, fs0⟩
  · simp at hlen; omega
  · have h := processLoop_cancel_at (f0 :: fs0).length n p hat
      (order.map (mkCompleted beh elapsed))
      ⟨[], [], false, false, 0, ["process_start"], [], []⟩ rfl rfl (by simp; omega)
      (by have hlen' : n ≤ fs0.length + 1 := by simpa using hlen
          simp only [List.length_map, hlen0]
          simp
          omega)
      (fun k f hk hk' => hbefore k f (by simp at hk; omega) hk')
    simp only [processFilesAsync, List.isEmpty_cons, Bool.false_eq_true, if_false]
    refine ⟨h.1, ?_, ?_⟩
    · have := h.2.1
      simpa using this
    · have := h.2.2
      simpa using this

/-- Witness: two jobs with a callback that cancels at the first
completion. -/
theorem callback_cancellation_witness :
    (processFilesAsync ["a.txt", "b.txt"] "out" (fun _ => ConvBehavior.retTrue)
        (fun _ => "0.10") (some (fun _ _ _ => some false))
        (submitJobs ["a.txt", "b.txt"] "out")).result.cancelled = true ∧
    (processFilesAsync ["a.txt", "b.txt"] "out" (fun _ => ConvBehavior.retTrue)
        (fun _ => "0.10") (some (fun _ _ _ => some false))
        (submitJobs ["a.txt", "b.txt"] "out")).result.success.length
      + (processFilesAsync ["a.txt", "b.txt"] "out" (fun _ => ConvBehavior.retTrue)
          (fun _ => "0.10") (some (fun _ _ _ => some false))
          (submitJobs ["a.txt", "b.txt"] "out")).result.errors.length
      = 1 ∧
    (processFilesAsync ["a.txt", "b.txt"] "out" (fun _ => ConvBehavior.retTrue)
        (fun _ => "0.10") (some (fun _ _ _ => some false))
        (submitJobs ["a.txt", "b.txt"] "out")).progressCalls.length = 1 :=
  callback_cancellation ["a.txt", "b.txt"] "out" (fun _ => ConvBehavior.retTrue)
    (fun _ => "0.10") (fun _ _ _ => some false) (submitJobs ["a.txt", "b.txt"] "out") 1
    (List.Perm.refl _) (by decide) (by decide)
    (fun k f hk hk' => ((Nat.lt_irrefl k) (Nat.lt_of_lt_of_le hk' hk)).elim)
    (fun _ => rfl)

theorem processLoop_none_eq (total : Nat) :
    ∀ (l : List CompletedFuture) (st : LoopState), st.flag = false →
      processLoop none total l st =
        ⟨st.success ++ l.filterMap successOf,
         st.errors ++ l.filterMap errorOf,
         st.resCancelled, st.flag, st.completedCount + l.length,
         st.events ++ eventsOf l, st.progressCalls,
         st.converterCalls ++ l.map (fun f => f.job.filePath)⟩ := by
  intro l
  induction l with
  | nil =>
    intro st h1
    simp [processLoop, eventsOf]
  | cons f rest ih =>
    intro st h1
    obtain ⟨⟨fp, op⟩, oc⟩ := f
    rcases oc with r | m
    · rcases r with msg | e
      · simp only [processLoop, h1, Bool.false_eq_true, if_false]
        rw [ih { st with
            success := st.success ++ [⟨fp, op, msg⟩],
            flag := false,
            completedCount := st.completedCount + 1,
            events := (st.events ++ ["progress"]) ++ ["file_complete"],
            converterCalls := st.converterCalls ++ [fp] } rfl]
        simp [successOf, errorOf, eventsOf, List.filterMap_cons, List.append_assoc] <;> omega
      · simp only [processLoop, h1, Bool.false_eq_true, if_false]
        rw [ih { st with
            errors := st.errors ++ [⟨fp, e⟩],
            flag := false,
            completedCount := st.completedCount + 1,
            events := (st.events ++ ["progress"]) ++ ["error"],
            converterCalls := st.converterCalls ++ [fp] } rfl]
        simp [successOf, errorOf, eventsOf, List.filterMap_cons, List.append_assoc] <;> omega
    · simp only [processLoop, h1, Bool.false_eq_true, if_false]
      rw [ih { st with
          errors := st.errors ++ [⟨fp, "Timeout ou erro na execução: " ++ m⟩],
          flag := false,
          completedCount := st.completedCount + 1,
          events := (st.events ++ ["progress"]) ++ ["error"],
          converterCalls := st.converterCalls ++ [fp] } rfl]
      simp [successOf, errorOf, eventsOf, List.filterMap_cons, List.append_assoc] <;> omega

/-- C6: an exception raised by (or a falsy return from) the conversion
callback for one job is caught inside the worker and recorded as a single
error entry referencing that job's input; it never propagates to the
batch caller and never aborts the batch: with three submitted jobs of
which exactly the second fails, the other two are classified as
successes, the errors list is exactly the failing job's entry, and the
cancelled flag stays unset. -/
theorem job_error_isolated (f1 f2 f3 outputDir : String)
    (beh : String → ConvBehavior) (elapsed : String → String) (order : List Job)
    (m1 m3 emsg : String)
    (hb1 : processSingleFile false (beh f1) (elapsed f1) = .ok m1)
    (hb2 : processSingleFile false (beh f2) (elapsed f2) = .err emsg)
    (hb3 : processSingleFile false (beh f3) (elapsed f3) = .ok m3)
    (horder : order.Perm (submitJobs [f1, f2, f3] outputDir)) :
    (processFilesAsync [f1, f2, f3] outputDir beh elapsed none order).result.cancelled = false ∧
    (processFilesAsync [f1, f2, f3] outputDir beh elapsed none order).result.success.length = 2 ∧
    (processFilesAsync [f1, f2, f3] outputDir beh elapsed none order).result.errors
      = [⟨f2, emsg⟩] := by
  have hmap := horder.map (mkCompleted beh elapsed)
  have hsucc : ((submitJobs [f1, f2, f3] outputDir).map (mkCompleted beh elapsed)).filterMap successOf
      = [⟨f1, generateOutputPath f1 outputDir, m1⟩, ⟨f3, generateOutputPath f3 outputDir, m3⟩] := by
    simp [submitJobs, mkCompleted, successOf, hb1, hb2, hb3, List.filterMap_cons]
  have herr : ((submitJobs [f1, f2, f3] outputDir).map (mkCompleted beh elapsed)).filterMap errorOf
      = [⟨f2, emsg⟩] := by
    simp [submitJobs, mkCompleted, errorOf, hb1, hb2, hb3, List.filterMap_cons]
  simp only [processFilesAsync, List.isEmpty_cons, Bool.false_eq_true, if_false]
  rw [processLoop_none_eq ([f1, f2, f3].length) (order.map (mkCompleted beh elapsed))
    ⟨[], [], false, false, 0, ["process_start"], [], []⟩ rfl]
  refine ⟨rfl, ?_, ?_⟩
  · have hp := hmap.filterMap successOf
    rw [hsucc] at hp
    have := hp.length_eq
    simpa using this
  · have hp := hmap.filterMap errorOf
    rw [herr] at hp
    have := List.perm_singleton.mp hp
    simpa using this

/-- Witness: three concrete jobs where only the second one's converter
raises. -/
theorem job_error_isolated_witness :
    (processFilesAsync ["a.txt", "b.txt", "c.txt"] "out"
        (fun f => if f = "b.txt" then ConvBehavior.raises "ValueError" "boom" else ConvBehavior.retTrue)
        (fun _ => "0.10") none
        (submitJobs ["a.txt", "b.txt", "c.txt"] "out")).result.cancelled = false ∧
    (processFilesAsync ["a.txt", "b.txt", "c.txt"] "out"
        (fun f => if f = "b.txt" then ConvBehavior.raises "ValueError" "boom" else ConvBehavior.retTrue)
        (fun _ => "0.10") none
        (submitJobs ["a.txt", "b.txt", "c.txt"] "out")).result.success.length = 2 ∧
    (processFilesAsync ["a.txt", "b.txt", "c.txt"] "out"
        (fun f => if f = "b.txt" then ConvBehavior.raises "ValueError" "boom" else ConvBehavior.retTrue)
        (fun _ => "0.10") none
        (submitJobs ["a.txt", "b.txt", "c.txt"] "out")).result.errors
      = [⟨"b.txt", "ValueError: boom"⟩] :=
  job_error_isolated "a.txt" "b.txt" "c.txt" "out"
    (fun f => if f = "b.txt" then ConvBehavior.raises "ValueError" "boom" else ConvBehavior.retTrue)
    (fun _ => "0.10") (submitJobs ["a.txt", "b.txt", "c.txt"] "out")
    "Convertido em 0.10s" "Convertido em 0.10s" "ValueError: boom"
    (by decide) (by decide) (by decide) (List.Perm.refl _)

/-- C3: evidence of the dead per-job timeout.  The aggregation loop
iterates over as_completed with no deadline, so it dequeues a future only
once the future is done, and future.result applied to a done future
returns at once whatever the timeout argument is: a conversion that takes
40 seconds, longer than the 30-second per-file timeout, is still waited
for and recorded as a success with no timeout-indicating error, instead
of being classified as a timeout failure. -/
theorem slow_job_not_timed_out :
    perFileTimeoutSecs < 40 ∧
    (processFilesAsyncTimed ["slow.txt", "fast.txt"] "out" (fun _ => ConvBehavior.retTrue)
        (fun f => if f = "slow.txt" then 40 else 1) none
        [⟨"fast.txt", "out/fast.md"⟩, ⟨"slow.txt", "out/slow.md"⟩]).result =
      ⟨[⟨"fast.txt", "out/fast.md", "Convertido em 1.00s"⟩,
        ⟨"slow.txt", "out/slow.md", "Convertido em 40.00s"⟩], [], false⟩ := by
  exact ⟨by decide, by decide⟩

/-- C5: cancellation is monotonic and idempotent.  Applying
cancel_all_operations twice equals applying it once; every step preserves
a set cancellation flag; once the flag is set, no job moves from pending
to running under any step (a pending job observing the flag
short-circuits to the cancelled phase instead), and _process_single_file
run with the flag set returns the cancelled failure without running the
conversion; cancel_all_operations clears the futures registry, so the
active task count is zero immediately afterwards, and every later step
keeps the registry empty, so the count never increases again. -/
theorem cancel_monotonic_idempotent :
    (∀ s : RunnerState, cancelAllState (cancelAllState s) = cancelAllState s) ∧
    (∀ s s' : RunnerState, Step s s' → s.flag = true → s'.flag = true) ∧
    (∀ (s s' : RunnerState) (i : Nat), Step s s' → s.flag = true →
       s.jobs i = JobPhase.pending → s'.jobs i ≠ JobPhase.running) ∧
    (∀ s : RunnerState, (cancelAllState s).flag = true ∧ activeCount (cancelAllState s) = 0) ∧
    (∀ s s' : RunnerState, Step s s' → s.registry = [] → s'.registry = []) ∧
    (∀ (beh : ConvBehavior) (el : String),
       processSingleFile true beh el = SingleResult.err "Operação cancelada") := by
  refine ⟨?_, ?_, ?_, ?_, ?_, ?_⟩
  · intro s
    simp only [cancelAllState]
    congr 1
  · intro s s' h hf
    cases h with
    | start i' h1 h2 => rw [h2] at hf; exact absurd hf (by decide)
    | shortCircuit i' h1 h2 => exact hf
    | finish i' h1 => exact hf
    | dequeue i' => exact hf
    | cancelAll => rfl
  · intro s s' i h hf hp
    cases h with
    | start i' h1 h2 => rw [h2] at hf; exact absurd hf (by decide)
    | shortCircuit i' h1 h2 => by_cases hi : i = i' <;> simp [hi, hp]
    | finish i' h1 => by_cases hi : i = i' <;> simp [hi, hp]
    | dequeue i' => simp [hp]
    | cancelAll =>
      simp only [cancelAllState]
      split <;> simp [hp]
  · intro s
    exact ⟨rfl, rfl⟩
  · intro s s' h hr
    cases h with
    | start i' h1 h2 => exact hr
    | shortCircuit i' h1 h2 => exact hr
    | finish i' h1 => exact hr
    | dequeue i' => simp [hr]
    | cancelAll => rfl
  · intro beh el
    rfl

/-- Witness: one cancel_all_operations step from a state whose flag is
already set and whose single registered job is pending. -/
theorem cancel_monotonic_idempotent_witness :
    (cancelAllState witnessRunnerState).flag = true ∧
    (cancelAllState witnessRunnerState).jobs 0 ≠ JobPhase.running ∧
    activeCount (cancelAllState witnessRunnerState) = 0 ∧
    processSingleFile true ConvBehavior.retTrue "0.10" = SingleResult.err "Operação cancelada" :=
  ⟨cancel_monotonic_idempotent.2.1 witnessRunnerState (cancelAllState witnessRunnerState)
      (Step.cancelAll witnessRunnerState) rfl,
   cancel_monotonic_idempotent.2.2.1 witnessRunnerState (cancelAllState witnessRunnerState) 0
      (Step.cancelAll witnessRunnerState) rfl rfl,
   (cancel_monotonic_idempotent.2.2.2.1 witnessRunnerState).2,
   cancel_monotonic_idempotent.2.2.2.2.2 ConvBehavior.retTrue "0.10"⟩

theorem lookupEntry_insert_self (d : CacheData) (k : String × String) (e : CacheEntry) :
    lookupEntry (insertEntry d k e) k = some e := by
  unfold lookupEntry insertEntry
  induction d with
  | nil => simp [List.find?]
  | cons kv rest ih =>
    by_cases h : kv.1 = k
    · simpa [List.filter_cons, h] using ih
    · simpa [List.filter_cons, List.find?, h] using ih

/-- C7: cache recording is idempotent and staleness-sensitive.  For a
pair never recorded the validity check reports false; recording once or
twice with identical paths and options makes the check report true on the
unchanged files (the stored fingerprint equals the current one and the
fresh timestamp is inside the retention window); and once the input
file's stat fingerprint changes with no new record, the check reports
false again. -/
theorem cache_record_idempotent_staleness (fs fs' : FileSystem) (now : Int)
    (maxAgeDays : Nat) (d : CacheData) (inp outp : String)
    (opts : List (String × String)) (st st' : FileStat)
    (hin : fs.files inp = some st) (hout : (fs.files outp).isSome = true)
    (hin' : fs'.files inp = some st') (hne : st' ≠ st)
    (hout' : (fs'.files outp).isSome = true) :
    (lookupEntry d (get_cache_key inp outp) = none →
      is_cached fs now maxAgeDays d inp outp = false) ∧
    is_cached fs now maxAgeDays (add_to_cache fs now d inp outp opts) inp outp = true ∧
    is_cached fs now maxAgeDays
      (add_to_cache fs now (add_to_cache fs now d inp outp opts) inp outp opts) inp outp = true ∧
    is_cached fs' now maxAgeDays
      (add_to_cache fs now (add_to_cache fs now d inp outp opts) inp outp opts) inp outp
      = false := by
  have hcut : cutoffTimestamp now maxAgeDays ≤ now := by
    unfold cutoffTimestamp
    have h0 : (0 : Int) ≤ (maxAgeDays : Int) * 86400 := by positivity
    omega
  refine ⟨?_, ?_, ?_, ?_⟩
  · intro hnone
    cases h : is_cached fs now maxAgeDays d inp outp with
    | false => rfl
    | true =>
      obtain ⟨-, -, e, he, -, -⟩ := (is_cached_true_iff fs now maxAgeDays d inp outp).mp h
      rw [hnone] at he
      cases he
  · exact (is_cached_true_iff fs now maxAgeDays _ inp outp).mpr
      ⟨by simp [hin], hout,
       ⟨inp, outp, get_file_hash fs inp, now, opts⟩,
       lookupEntry_insert_self d (get_cache_key inp outp) _, rfl, hcut⟩
  · exact (is_cached_true_iff fs now maxAgeDays _ inp outp).mpr
      ⟨by simp [hin], hout,
       ⟨inp, outp, get_file_hash fs inp, now, opts⟩,
       lookupEntry_insert_self (add_to_cache fs now d inp outp opts)
         (get_cache_key inp outp) _, rfl, hcut⟩
  · cases h : is_cached fs' now maxAgeDays
        (add_to_cache fs now (add_to_cache fs now d inp outp opts) inp outp opts) inp outp with
    | false => rfl
    | true =>
      obtain ⟨-, -, e, he, hh, -⟩ :=
        (is_cached_true_iff fs' now maxAgeDays _ inp outp).mp h
      simp only [add_to_cache] at he
      rw [lookupEntry_insert_self] at he
      cases he
      have hs : some st = some st' := by
        simpa [get_file_hash, hin, hin'] using hh
      exact absurd (Option.some.inj hs).symm hne

/-- Witness: a concrete input and output pair, recorded twice against one
file system and checked against a file system in which the input's
modification time has changed. -/
theorem cache_record_idempotent_staleness_witness :
    is_cached fsA 1000 30 [] "doc.pdf" "doc.md" = false ∧
    is_cached fsA 1000 30 (add_to_cache fsA 1000 [] "doc.pdf" "doc.md" [])
      "doc.pdf" "doc.md" = true ∧
    is_cached fsA 1000 30
      (add_to_cache fsA 1000 (add_to_cache fsA 1000 [] "doc.pdf" "doc.md" [])
        "doc.pdf" "doc.md" []) "doc.pdf" "doc.md" = true ∧
    is_cached fsB 1000 30
      (add_to_cache fsA 1000 (add_to_cache fsA 1000 [] "doc.pdf" "doc.md" [])
        "doc.pdf" "doc.md" []) "doc.pdf" "doc.md" = false :=
  ⟨(cache_record_idempotent_staleness fsA fsB 1000 30 [] "doc.pdf" "doc.md" []
      ⟨100, 5⟩ ⟨100, 7⟩ (by decide) (by decide) (by decide) (by decide) (by decide)).1 rfl,
   (cache_record_idempotent_staleness fsA fsB 1000 30 [] "doc.pdf" "doc.md" []
      ⟨100, 5⟩ ⟨100, 7⟩ (by decide) (by decide) (by decide) (by decide) (by decide)).2.1,
   (cache_record_idempotent_staleness fsA fsB 1000 30 [] "doc.pdf" "doc.md" []
      ⟨100, 5⟩ ⟨100, 7⟩ (by decide) (by decide) (by decide) (by decide) (by decide)).2.2.1,
   (cache_record_idempotent_staleness fsA fsB 1000 30 [] "doc.pdf" "doc.md" []
      ⟨100, 5⟩ ⟨100, 7⟩ (by decide) (by decide) (by decide) (by decide) (by decide)).2.2.2⟩
